import Mathlib

/-!
Shallow embedding of the network-capability measurement engine of the
`speedtest` repository (a Vite + React single-page application), and proofs
about it.

Conventions used throughout:

* JavaScript numbers are modelled as rationals (`ℚ`).  Where the source can
  produce `NaN` or treats a value as absent (`null`/`undefined`), the value is
  modelled as `Option ℚ` with `none` standing for absent-or-`NaN`.
* The event-driven measurement loops (`measureDownload`, `measureUpload`,
  `measureLatency`) are modelled as folds of a step function over a list of
  request outcomes ("events"): one event per settled request, in settlement
  order.  Aborted requests (the `AbortError` path, which mutates no counters)
  appear as explicit `aborted` events that leave the state unchanged.
* Wall-clock elapsed time, which only enters the final `bytes × 8 / elapsed`
  computation, is an explicit parameter.
-/

namespace Speedtest

/-- Rational model of `Number.EPSILON` (2⁻⁵²), the tolerance used by the
threshold comparisons in `rateCapabilities`. -/
def EPSILON : ℚ := 1 / 2 ^ 52

/-! ## Latency sampler aggregate (`measureLatency`)

At the end of the probe loop the source computes

  `const average = durations.reduce((acc, v) => acc + v, 0) / Math.max(1, durations.length);`
  `const loss = (drops / (drops + durations.length)) * 100;`

and throws `lastError` when `durations.length === 0 && lastError`.  In
JavaScript `0 / 0` is `NaN`; the loss expression has no guarded divisor, so
with `drops = 0` and no collected samples it evaluates to `NaN`.  `NaN` is
modelled as `none`. -/

/-- Aggregate `average` of `measureLatency`: sum of the collected probe
durations divided by `Math.max(1, durations.length)`. -/
def measureLatencyAverage (durations : List ℚ) : ℚ :=
  durations.sum / (max 1 durations.length : ℕ)

/-- Aggregate `loss` of `measureLatency`: `(drops / (drops + samples)) * 100`
under JavaScript float semantics, where `samples` is the number of collected
durations.  The `0 / 0 = NaN` case is modelled as `none`. -/
def measureLatencyLoss (drops samples : ℕ) : Option ℚ :=
  if drops + samples = 0 then none
  else some ((drops : ℚ) / ((drops : ℚ) + (samples : ℚ)) * 100)

/-! ## Transfer sampler (`measureDownload`)

Worker state shared by the `pump` loops: `bytes`, `count`, `lastError`.  One
`TransferEvent` is recorded per settled request:

* `success b` — a response with `response.ok` whose body carried `b` bytes:
  `bytes += b; count += 1; lastError = null;`
* `failure err` — any non-`AbortError` rejection or non-ok status:
  `lastError = err;`
* `aborted` — an `AbortError` (the worker returns; no counter changes).
-/

inductive TransferEvent where
  | success (bytes : ℕ)
  | failure (err : String)
  | aborted
  deriving DecidableEq

structure TransferState where
  bytes : ℕ
  count : ℕ
  lastError : Option String
  deriving DecidableEq

/-- Effect of one settled download request on the shared phase state. -/
def transferStep (s : TransferState) (e : TransferEvent) : TransferState :=
  match e with
  | .success b => { bytes := s.bytes + b, count := s.count + 1, lastError := none }
  | .failure err => { s with lastError := some err }
  | .aborted => s

/-- State of the download phase after a list of settled requests, starting
from `bytes = 0`, `count = 0`, `lastError = null`. -/
def runTransfer (events : List TransferEvent) : TransferState :=
  events.foldl transferStep { bytes := 0, count := 0, lastError := none }

/-- Final throughput computation `(bytes * 8) / Math.max(elapsedSeconds, 0.001)`. -/
def transferBps (elapsedSeconds : ℚ) (bytes : ℕ) : ℚ :=
  (bytes * 8 : ℚ) / max elapsedSeconds (1 / 1000)

/-- Phase epilogue of `measureDownload`:
`if (bytes === 0 && lastError) throw lastError; return { bps, count };`. -/
def finishTransfer (elapsedSeconds : ℚ) (s : TransferState) : Except String (ℚ × ℕ) :=
  match s.lastError with
  | some err =>
      if s.bytes = 0 then .error err
      else .ok (transferBps elapsedSeconds s.bytes, s.count)
  | none => .ok (transferBps elapsedSeconds s.bytes, s.count)

/-- Errors recorded by a list of events (the arguments of `failure` events, in
order). -/
def recordedErrors (events : List TransferEvent) : List String :=
  events.filterMap fun e =>
    match e with
    | .failure err => some err
    | _ => none

/-! ## Upload target configuration

Source:

  `const ENV_UPLOAD_ENDPOINTS = ((import.meta.env?.VITE_UPLOAD_ENDPOINTS ?? ... ?? '')`
  `  .split(',').map((v) => v.trim()).filter(Boolean)`
  `  .map((url, index) => ({ name: \x7bCustom endpoint ${index + 1}\x7d, url })));`
  `const UPLOAD_TARGETS = [...ENV_UPLOAD_ENDPOINTS, ...DEFAULT_UPLOAD_TARGETS].filter(`
  `  (target, index, array) => array.findIndex((item) => item.url === target.url) === index);`

JavaScript's `String.prototype.split(',')` and `String.prototype.trim()` are
re-implemented below on the character list of the string so that they are
kernel-reducible (`"".split(',')` is `[""]`, matching JavaScript). -/

structure UploadTarget where
  name : String
  url : String
  deriving DecidableEq

def DEFAULT_UPLOAD_TARGETS : List UploadTarget :=
  [ { name := "Cloudflare Speed Test", url := "https://speed.cloudflare.com/__up" },
    { name := "Postman Echo", url := "https://postman-echo.com/post" },
    { name := "HTTPBin", url := "https://httpbin.org/post" } ]

/-- Helper for `jsSplitComma`: scans the character list, cutting at commas. -/
def jsSplitCommaAux : List Char → List Char → List String
  | [], acc => [⟨acc.reverse⟩]
  | c :: cs, acc =>
      if c = ',' then ⟨acc.reverse⟩ :: jsSplitCommaAux cs []
      else jsSplitCommaAux cs (c :: acc)

/-- JavaScript `s.split(',')`: the comma-separated pieces of `s`;
an empty string yields `[""]`. -/
def jsSplitComma (s : String) : List String :=
  jsSplitCommaAux s.data []

/-- JavaScript `s.trim()`: strips leading and trailing whitespace. -/
def jsTrim (s : String) : String :=
  ⟨((s.data.dropWhile Char.isWhitespace).reverse.dropWhile Char.isWhitespace).reverse⟩

/-- The `ENV_UPLOAD_ENDPOINTS` list parsed from the raw environment variable
value `env` (empty string when the variable is unset): split on commas, trim,
drop empty entries (`filter(Boolean)`), name sequentially. -/
def ENV_UPLOAD_ENDPOINTS (env : String) : List UploadTarget :=
  (((jsSplitComma env).map jsTrim).filter (· ≠ "")).enum.map
    fun p => { name := s!"Custom endpoint {p.1 + 1}", url := p.2 }

/-- The de-duplication filter of `UPLOAD_TARGETS`: keep the entry at index `i`
exactly when the first index holding its `url` is `i` itself. -/
def dedupByUrl (arr : List UploadTarget) : List UploadTarget :=
  (arr.enum.filter fun p => arr.findIdx (fun item => item.url = p.2.url) = p.1).map Prod.snd

/-- The merged upload target list: configured entries first, then built-in
defaults, de-duplicated by URL keeping first occurrences. -/
def UPLOAD_TARGETS (env : String) : List UploadTarget :=
  dedupByUrl (ENV_UPLOAD_ENDPOINTS env ++ DEFAULT_UPLOAD_TARGETS)

/-- Configuration check at the top of `measureUpload`:
`if (UPLOAD_TARGETS.length === 0) throw new Error('No upload endpoints configured. ...');`. -/
def measureUploadConfigCheck (env : String) : Except String Unit :=
  if (UPLOAD_TARGETS env).length = 0 then
    .error "No upload endpoints configured. Set VITE_UPLOAD_ENDPOINTS or VITE_UPLOAD_ENDPOINT to provide at least one target."
  else .ok ()

/-! ## Upload sampler with endpoint rotation (`measureUpload`)

Shared phase state: `bytes`, `count`, `lastError`, `activeTargetIndex`,
`failureCounts` (one counter per target), the de-duplication cursor
`lastNotifiedTarget` of `notifyTargetChange` (initially `-1`, modelled as
`none`), and the list of notifications delivered to the `onTargetChange`
observer (the observer is modelled as always present).  Each successful POST
adds `payload.byteLength = 2 ** 20 * 2` bytes. -/

/-- JavaScript error value as used by the upload pump: its `message`, its
optional numeric `status` property (set by the non-ok-response throw site),
and its runtime `name` (`"TypeError"` for fetch network/transport failures). -/
structure JsError where
  message : String
  status : Option ℕ
  name : String
  deriving DecidableEq

/-- Status classification in the upload pump's catch block:
`typeof e.status === 'number' ? e.status : e.name === 'TypeError' ? 0 : undefined`. -/
def classifyUploadFailureStatus (e : JsError) : Option ℕ :=
  match e.status with
  | some s => some s
  | none => if e.name = "TypeError" then some 0 else none

structure TargetChangeNotice where
  name : String
  url : String
  reason : String
  deriving DecidableEq

structure UploadState where
  bytes : ℕ
  count : ℕ
  lastError : Option JsError
  activeTargetIndex : ℕ
  failureCounts : List ℕ
  lastNotifiedTarget : Option ℕ
  notifications : List TargetChangeNotice
  deriving DecidableEq

/-- Model of `notifyTargetChange(reason)`: skip when the active target was
already the last one notified and the reason is not `'retry'`; otherwise
remember the active target and emit a notification carrying the active
target's name and URL. -/
def notifyTargetChange (targets : List UploadTarget) (s : UploadState)
    (reason : String) : UploadState :=
  if s.lastNotifiedTarget = some s.activeTargetIndex ∧ reason ≠ "retry" then s
  else
    let target := targets.getD s.activeTargetIndex { name := "", url := "" }
    { s with
      lastNotifiedTarget := some s.activeTargetIndex
      notifications := s.notifications ++ [⟨target.name, target.url, reason⟩] }

/-- Model of `advanceTarget(reason)`: with at most one target do nothing;
otherwise advance the cursor cyclically and, when the index actually changed,
zero the newly selected target's failure counter and notify. -/
def advanceTarget (targets : List UploadTarget) (s : UploadState)
    (reason : String) : UploadState :=
  if targets.length ≤ 1 then s
  else
    let previousIndex := s.activeTargetIndex
    let nextIndex := (s.activeTargetIndex + 1) % targets.length
    if nextIndex ≠ previousIndex then
      notifyTargetChange targets
        { s with
          activeTargetIndex := nextIndex
          failureCounts := s.failureCounts.set nextIndex 0 }
        reason
    else { s with activeTargetIndex := nextIndex }

inductive UploadEvent where
  | success
  | failure (err : JsError)
  | aborted
  deriving DecidableEq

/-- Effect of one settled upload request on the shared phase state.  A success
adds the fixed 2 MiB payload size, resets `lastError` and the current
target's failure counter.  A failure records the error, increments the current
target's failure counter, and rotates when more than one target exists and
the classified status is 429, 403 or 0, or the incremented counter reached 3. -/
def uploadStep (targets : List UploadTarget) (s : UploadState)
    (e : UploadEvent) : UploadState :=
  match e with
  | .success =>
      { s with
        bytes := s.bytes + 2 ^ 20 * 2
        count := s.count + 1
        lastError := none
        failureCounts := s.failureCounts.set s.activeTargetIndex 0 }
  | .failure err =>
      let s1 : UploadState :=
        { s with
          lastError := some err
          failureCounts :=
            s.failureCounts.set s.activeTargetIndex
              (s.failureCounts.getD s.activeTargetIndex 0 + 1) }
      let status := classifyUploadFailureStatus err
      if 1 < targets.length ∧
          (status = some 429 ∨ status = some 403 ∨ status = some 0 ∨
            3 ≤ s1.failureCounts.getD s1.activeTargetIndex 0) then
        advanceTarget targets s1 "fallback"
      else s1
  | .aborted => s

/-- Upload phase state right after `notifyTargetChange('initial')`, before any
request has settled. -/
def initUploadState (targets : List UploadTarget) : UploadState :=
  notifyTargetChange targets
    { bytes := 0, count := 0, lastError := none, activeTargetIndex := 0,
      failureCounts := List.replicate targets.length 0,
      lastNotifiedTarget := none, notifications := [] }
    "initial"

/-- State of the upload phase after a list of settled requests. -/
def runUpload (targets : List UploadTarget) (events : List UploadEvent) : UploadState :=
  events.foldl (uploadStep targets) (initUploadState targets)

/-- Phase epilogue of `measureUpload`:
`if (bytes === 0 && lastError) throw lastError; return { bps, count };`. -/
def finishUpload (elapsedSeconds : ℚ) (s : UploadState) : Except JsError (ℚ × ℕ) :=
  match s.lastError with
  | some err =>
      if s.bytes = 0 then .error err
      else .ok (transferBps elapsedSeconds s.bytes, s.count)
  | none => .ok (transferBps elapsedSeconds s.bytes, s.count)

/-- Errors recorded by a list of upload events. -/
def recordedUploadErrors (events : List UploadEvent) : List JsError :=
  events.filterMap fun e =>
    match e with
    | .failure err => some err
    | _ => none

/-! ## Capability rating engine (`rateCapabilities`, grouped variant)

Measurements are `Option ℚ`; the source guards every dimension with
`value == null || Number.isNaN(value)`, so `none` stands for
absent-or-`NaN`.  The human-readable entries pushed onto the `missing` and
`limiting` arrays are modelled by their dimension labels; the interpolated
actual/threshold numbers of the `limiting` strings are elided (no claim
depends on them). -/

structure Measurements where
  dlMbps : Option ℚ
  ulMbps : Option ℚ
  rtt : Option ℚ
  loss : Option ℚ

structure Thresholds where
  minDl : Option ℚ
  minUl : Option ℚ
  maxRtt : Option ℚ
  maxLoss : Option ℚ

structure CapabilityQuality where
  key : String
  label : String
  detail : String
  thresholds : Thresholds

structure CapabilityGroup where
  service : String
  qualities : List CapabilityQuality

/-- One dimension with a minimum threshold: skipped when the tier has no such
threshold; `missing` when the measurement is absent; `limiting` when
`value + Number.EPSILON < threshold`.  Returns `(missing, limiting)` entries. -/
def evalMinDim (label : String) (threshold measurement : Option ℚ) :
    List String × List String :=
  match threshold with
  | none => ([], [])
  | some t =>
      match measurement with
      | none => ([label], [])
      | some v => if v + EPSILON < t then ([], [label]) else ([], [])

/-- One dimension with a maximum threshold: `limiting` when
`value - Number.EPSILON > threshold`. -/
def evalMaxDim (label : String) (threshold measurement : Option ℚ) :
    List String × List String :=
  match threshold with
  | none => ([], [])
  | some t =>
      match measurement with
      | none => ([label], [])
      | some v => if v - EPSILON > t then ([], [label]) else ([], [])

structure TierResult where
  key : String
  label : String
  detail : String
  status : Option Bool
  missing : List String
  limiting : List String

/-- Tier status from the collected reason lists:
`limiting.length > 0 ? false : missing.length > 0 ? null : true`. -/
def tierStatusOf (missing limiting : List String) : Option Bool :=
  if 0 < limiting.length then some false
  else if 0 < missing.length then none
  else some true

/-- Per-tier evaluation: the four dimensions are checked in source order
(download, upload, latency, loss). -/
def evaluateQuality (m : Measurements) (q : CapabilityQuality) : TierResult :=
  let dl := evalMinDim "download speed" q.thresholds.minDl m.dlMbps
  let ul := evalMinDim "upload speed" q.thresholds.minUl m.ulMbps
  let rttD := evalMaxDim "latency" q.thresholds.maxRtt m.rtt
  let lossD := evalMaxDim "packet loss" q.thresholds.maxLoss m.loss
  let missing := dl.1 ++ ul.1 ++ rttD.1 ++ lossD.1
  let limiting := dl.2 ++ ul.2 ++ rttD.2 ++ lossD.2
  { key := q.key, label := q.label, detail := q.detail,
    status := tierStatusOf missing limiting,
    missing := missing, limiting := limiting }

structure GroupResult where
  key : String
  ok : Option Bool
  why : String
  missing : List String
  limiting : List String
  options : List TierResult

/-- Per-group aggregation: `Pass` on the first passing tier
(`passingOptions[0]`), else `Unknown` on the first tier with unknown status
(`options.find`), else `Fail` on the last failing tier
(`[...options].reverse().find`). -/
def rateGroup (m : Measurements) (g : CapabilityGroup) : GroupResult :=
  let options := g.qualities.map (evaluateQuality m)
  let passingOptions := options.filter fun o => o.status = some true
  let unknownOption := options.find? fun o => o.status = none
  let failingOption := options.reverse.find? fun o => o.status = some false
  match passingOptions with
  | top :: _ =>
      { key := g.service, ok := some true,
        why := s!"Highest supported quality: {top.label} ({top.detail})",
        missing := [], limiting := [], options := options }
  | [] =>
      match unknownOption with
      | some u =>
          { key := g.service, ok := none,
            why := s!"Need more data to evaluate {g.service}.",
            missing := u.missing, limiting := [], options := options }
      | none =>
          { key := g.service, ok := some false,
            why := s!"Requirements not met for {(failingOption.map fun o => o.label).getD g.service}.",
            missing := [],
            limiting := (failingOption.map fun o => o.limiting).getD [],
            options := options }

/-- The static profile catalog of the grouped variant. -/
def CAPABILITY_GROUPS : List CapabilityGroup :=
  [ { service := "Teams",
      qualities :=
        [ { key := "teams-720p", label := "Video 720p",
            detail := "≥1.5/1 Mbps, RTT ≤150ms",
            thresholds :=
              { minDl := some 1.5, minUl := some 1,
                maxRtt := some 150, maxLoss := some 3 } },
          { key := "teams-audio", label := "Audio only",
            detail := "≥0.3/0.3 Mbps, RTT ≤200ms",
            thresholds :=
              { minDl := some 0.3, minUl := some 0.3,
                maxRtt := some 200, maxLoss := some 5 } } ] },
    { service := "Streaming",
      qualities :=
        [ { key := "streaming-4k", label := "4K",
            detail := "≥25 Mbps down",
            thresholds :=
              { minDl := some 25, minUl := none,
                maxRtt := none, maxLoss := some 2 } },
          { key := "streaming-1080p", label := "1080p",
            detail := "≥5 Mbps down",
            thresholds :=
              { minDl := some 5, minUl := none,
                maxRtt := none, maxLoss := some 3 } } ] },
    { service := "GeForce NOW",
      qualities :=
        [ { key := "geforce-1080p60", label := "1080p60",
            detail := "≥25 Mbps, RTT ≤40ms",
            thresholds :=
              { minDl := some 25, minUl := none,
                maxRtt := some 40, maxLoss := some 1.5 } },
          { key := "geforce-720p60", label := "720p60",
            detail := "≥15 Mbps, RTT ≤80ms",
            thresholds :=
              { minDl := some 15, minUl := none,
                maxRtt := some 80, maxLoss := some 2.5 } } ] } ]

/-- Entry point of the grouped rating engine. -/
def rateCapabilities (m : Measurements) : List GroupResult :=
  CAPABILITY_GROUPS.map (rateGroup m)

/-! ## Capability rating engine, flat variant (`src/App.jsx`)

The older flat variant compares without the epsilon tolerance:
`toCheck(label, value, predicate)` yields status `null` for an absent or
`NaN` measurement and `predicate(value)` otherwise, the predicates being
`value >= min` and `value <= max`. -/

structure AppCheck where
  label : String
  status : Option Bool

/-- Model of the flat variant's `toCheck` helper. -/
def appToCheck (label : String) (value : Option ℚ) (predicate : ℚ → Bool) : AppCheck :=
  match value with
  | none => { label := label, status := none }
  | some v => { label := label, status := some (predicate v) }

structure AppSpec where
  key : String
  thresholds : Thresholds
  why : String

/-- The flat variant's per-spec check list: one check per present threshold,
in source order, with the `value >= min` / `value <= max` predicates. -/
def appChecks (m : Measurements) (t : Thresholds) : List AppCheck :=
  (match t.minDl with
   | some th => [appToCheck "download speed" m.dlMbps fun v => decide (v ≥ th)]
   | none => []) ++
  (match t.minUl with
   | some th => [appToCheck "upload speed" m.ulMbps fun v => decide (v ≥ th)]
   | none => []) ++
  (match t.maxRtt with
   | some th => [appToCheck "latency" m.rtt fun v => decide (v ≤ th)]
   | none => []) ++
  (match t.maxLoss with
   | some th => [appToCheck "packet loss" m.loss fun v => decide (v ≤ th)]
   | none => [])

structure AppVerdict where
  key : String
  ok : Option Bool
  why : String
  missing : List String

/-- The flat variant's spec catalog. -/
def APP_SPECS : List AppSpec :=
  [ { key := "Teams audio",
      thresholds :=
        { minDl := some 0.3, minUl := some 0.3, maxRtt := some 200, maxLoss := some 5 },
      why := "≥0.3/0.3 Mbps, RTT ≤200ms" },
    { key := "Teams video 720p",
      thresholds :=
        { minDl := some 1.5, minUl := some 1, maxRtt := some 150, maxLoss := some 3 },
      why := "≥1.5/1 Mbps, RTT ≤150ms" },
    { key := "Streaming 1080p",
      thresholds :=
        { minDl := some 5, minUl := none, maxRtt := none, maxLoss := some 3 },
      why := "≥5 Mbps down" },
    { key := "Streaming 4K",
      thresholds :=
        { minDl := some 25, minUl := none, maxRtt := none, maxLoss := some 2 },
      why := "≥25 Mbps down" },
    { key := "GeForce NOW 1080p60",
      thresholds :=
        { minDl := some 25, minUl := none, maxRtt := some 40, maxLoss := some 1.5 },
      why := "≥25 Mbps, RTT ≤40ms" },
    { key := "GeForce NOW 720p60",
      thresholds :=
        { minDl := some 15, minUl := none, maxRtt := some 80, maxLoss := some 2.5 },
      why := "≥15 Mbps, RTT ≤80ms" } ]

/-- Entry point of the flat rating engine:
`ok = failed ? false : missing.length > 0 ? null : true`. -/
def appRateCapabilities (m : Measurements) : List AppVerdict :=
  APP_SPECS.map fun spec =>
    let checks := appChecks m spec.thresholds
    let missing := (checks.filter fun c => c.status = none).map fun c => c.label
    let failed := checks.any fun c => c.status = some false
    { key := spec.key,
      ok := if failed then some false
            else if 0 < missing.length then none
            else some true,
      why := spec.why, missing := missing }

/-! # Helper lemmas -/

/-- Last error recorded by an event, seen as a fold update: a failure
overwrites the accumulator, other events leave it unchanged.  (This is what
`lastError` reduces to on an event list without successes.) -/
def recordLastError (acc : Option String) (e : TransferEvent) : Option String :=
  match e with
  | .failure err => some err
  | _ => acc

theorem transferStep_bytes_le (s : TransferState) (e : TransferEvent) :
    s.bytes ≤ (transferStep s e).bytes := by
  cases e <;> simp [transferStep]

theorem foldl_transferStep_bytes_le (events : List TransferEvent) :
    ∀ s : TransferState, s.bytes ≤ (events.foldl transferStep s).bytes := by
  induction events with
  | nil => intro s; simp
  | cons e es ih =>
      intro s
      exact le_trans (transferStep_bytes_le s e) (by simpa using ih (transferStep s e))

theorem foldl_transferStep_success_zero (events : List TransferEvent) :
    ∀ s : TransferState, (events.foldl transferStep s).bytes = 0 →
      ∀ b, TransferEvent.success b ∈ events → b = 0 := by
  induction events with
  | nil => intro s _ b hb; simp at hb
  | cons e es ih =>
      intro s h b hb
      rw [List.foldl_cons] at h
      rcases List.mem_cons.mp hb with heq | hmem
      · subst heq
        have h1 := foldl_transferStep_bytes_le es (transferStep s (.success b))
        rw [h] at h1
        have h2 : (transferStep s (.success b)).bytes = 0 := Nat.le_zero.mp h1
        simp [transferStep] at h2
        exact h2.2
      · exact ih (transferStep s e) h b hmem

theorem foldl_transferStep_lastError (events : List TransferEvent) :
    ∀ s : TransferState, (∀ b, TransferEvent.success b ∈ events → False) →
      (events.foldl transferStep s).lastError =
        events.foldl recordLastError s.lastError := by
  induction events with
  | nil => intro s _; simp
  | cons e es ih =>
      intro s h
      rw [List.foldl_cons, List.foldl_cons]
      cases e with
      | success b => exact absurd (h b (List.mem_cons_self _ _)) id
      | failure err =>
          have := ih (transferStep s (.failure err))
            (fun b hb => h b (List.mem_cons_of_mem _ hb))
          simpa [transferStep, recordLastError] using this
      | aborted =>
          have := ih (transferStep s .aborted)
            (fun b hb => h b (List.mem_cons_of_mem _ hb))
          simpa [transferStep, recordLastError] using this

theorem foldl_recordLastError_some (events : List TransferEvent) :
    ∀ (acc : Option String) (err : String),
      events.foldl recordLastError acc = some err →
      TransferEvent.failure err ∈ events ∨ acc = some err := by
  induction events with
  | nil => intro acc err h; simp at h; exact Or.inr (by simp [h])
  | cons e es ih =>
      intro acc err h
      rw [List.foldl_cons] at h
      rcases ih (recordLastError acc e) err h with hmem | hacc
      · exact Or.inl (List.mem_cons_of_mem _ hmem)
      · cases e with
        | failure err2 =>
            simp [recordLastError] at hacc
            subst hacc
            exact Or.inl (List.mem_cons_self _ _)
        | success b =>
            simp [recordLastError] at hacc
            exact Or.inr (by simp [hacc])
        | aborted =>
            simp [recordLastError] at hacc
            exact Or.inr (by simp [hacc])

theorem foldl_recordLastError_isSome_of_isSome (events : List TransferEvent) :
    ∀ acc : Option String, acc.isSome →
      (events.foldl recordLastError acc).isSome := by
  induction events with
  | nil => intro acc h; simpa using h
  | cons e es ih =>
      intro acc h
      rw [List.foldl_cons]
      refine ih _ ?_
      cases e <;> simp [recordLastError] <;> simpa using h

theorem foldl_recordLastError_isSome_of_failure (events : List TransferEvent) :
    ∀ (acc : Option String) (err : String), TransferEvent.failure err ∈ events →
      (events.foldl recordLastError acc).isSome := by
  induction events with
  | nil => intro acc err h; simp at h
  | cons e es ih =>
      intro acc err h
      rw [List.foldl_cons]
      rcases List.mem_cons.mp h with heq | hmem
      · subst heq
        exact foldl_recordLastError_isSome_of_isSome es _ (by simp [recordLastError])
      · exact ih _ err hmem

theorem finishTransfer_error_iff (el : ℚ) (s : TransferState) (err : String) :
    finishTransfer el s = .error err ↔ s.lastError = some err ∧ s.bytes = 0 := by
  unfold finishTransfer
  cases h : s.lastError with
  | none => simp
  | some e =>
      by_cases hb : s.bytes = 0 <;> simp [hb]

theorem finishTransfer_ok_of_bytes_pos (el : ℚ) (s : TransferState)
    (h : 0 < s.bytes) : finishTransfer el s = .ok (transferBps el s.bytes, s.count) := by
  unfold finishTransfer
  cases s.lastError with
  | none => rfl
  | some e => simp [Nat.pos_iff_ne_zero.mp h]

/-- Last upload error recorded by an event, as a fold update. -/
def recordLastUploadError (acc : Option JsError) (e : UploadEvent) : Option JsError :=
  match e with
  | .failure err => some err
  | _ => acc

theorem notifyTargetChange_core (targets : List UploadTarget) (s : UploadState)
    (reason : String) :
    (notifyTargetChange targets s reason).bytes = s.bytes
    ∧ (notifyTargetChange targets s reason).count = s.count
    ∧ (notifyTargetChange targets s reason).lastError = s.lastError
    ∧ (notifyTargetChange targets s reason).activeTargetIndex = s.activeTargetIndex
    ∧ (notifyTargetChange targets s reason).failureCounts = s.failureCounts := by
  unfold notifyTargetChange
  split <;> exact ⟨rfl, rfl, rfl, rfl, rfl⟩

theorem advanceTarget_core (targets : List UploadTarget) (s : UploadState)
    (reason : String) :
    (advanceTarget targets s reason).bytes = s.bytes
    ∧ (advanceTarget targets s reason).count = s.count
    ∧ (advanceTarget targets s reason).lastError = s.lastError := by
  unfold advanceTarget
  by_cases h1 : targets.length ≤ 1
  · simp [h1]
  · by_cases h2 : ((s.activeTargetIndex + 1) % targets.length) ≠ s.activeTargetIndex
    · simp [h1, h2, notifyTargetChange_core]
    · simp [h1, h2]

theorem uploadStep_bytes (targets : List UploadTarget) (s : UploadState)
    (e : UploadEvent) :
    (uploadStep targets s e).bytes =
      match e with
      | .success => s.bytes + 2 ^ 20 * 2
      | _ => s.bytes := by
  cases e with
  | success => rfl
  | aborted => rfl
  | failure err =>
      show (uploadStep targets s (.failure err)).bytes = s.bytes
      simp only [uploadStep]
      split
      · simp [advanceTarget_core]
      · rfl

theorem uploadStep_lastError (targets : List UploadTarget) (s : UploadState)
    (e : UploadEvent) :
    (uploadStep targets s e).lastError =
      match e with
      | .success => none
      | .failure err => some err
      | .aborted => s.lastError := by
  cases e with
  | success => rfl
  | aborted => rfl
  | failure err =>
      show (uploadStep targets s (.failure err)).lastError = some err
      simp only [uploadStep]
      split
      · simp [advanceTarget_core]
      · rfl

theorem foldl_uploadStep_bytes_le (targets : List UploadTarget)
    (events : List UploadEvent) :
    ∀ s : UploadState, s.bytes ≤ (events.foldl (uploadStep targets) s).bytes := by
  induction events with
  | nil => intro s; simp
  | cons e es ih =>
      intro s
      have h1 : s.bytes ≤ (uploadStep targets s e).bytes := by
        rw [uploadStep_bytes]
        cases e <;> simp
      exact le_trans h1 (by simpa using ih (uploadStep targets s e))

theorem foldl_uploadStep_no_success (targets : List UploadTarget)
    (events : List UploadEvent) :
    ∀ s : UploadState, (events.foldl (uploadStep targets) s).bytes = 0 →
      UploadEvent.success ∉ events := by
  induction events with
  | nil => intro s _ hb; simp at hb
  | cons e es ih =>
      intro s h hb
      rw [List.foldl_cons] at h
      rcases List.mem_cons.mp hb with heq | hmem
      · subst heq
        have h1 := foldl_uploadStep_bytes_le targets es (uploadStep targets s .success)
        rw [h] at h1
        have h2 := Nat.le_zero.mp h1
        rw [uploadStep_bytes] at h2
        simp at h2
      · exact ih (uploadStep targets s e) h hmem

theorem foldl_uploadStep_lastError (targets : List UploadTarget)
    (events : List UploadEvent) :
    ∀ s : UploadState, UploadEvent.success ∉ events →
      (events.foldl (uploadStep targets) s).lastError =
        events.foldl recordLastUploadError s.lastError := by
  induction events with
  | nil => intro s _; simp
  | cons e es ih =>
      intro s h
      rw [List.foldl_cons, List.foldl_cons]
      have htail : UploadEvent.success ∉ es := fun hm => h (List.mem_cons_of_mem _ hm)
      cases e with
      | success => exact absurd (List.mem_cons_self _ _) h
      | failure err =>
          have := ih (uploadStep targets s (.failure err)) htail
          rw [this, uploadStep_lastError]
          rfl
      | aborted =>
          have := ih (uploadStep targets s .aborted) htail
          rw [this, uploadStep_lastError]
          rfl

theorem foldl_recordLastUploadError_some (events : List UploadEvent) :
    ∀ (acc : Option JsError) (err : JsError),
      events.foldl recordLastUploadError acc = some err →
      UploadEvent.failure err ∈ events ∨ acc = some err := by
  induction events with
  | nil => intro acc err h; simp at h; exact Or.inr (by simp [h])
  | cons e es ih =>
      intro acc err h
      rw [List.foldl_cons] at h
      rcases ih (recordLastUploadError acc e) err h with hmem | hacc
      · exact Or.inl (List.mem_cons_of_mem _ hmem)
      · cases e with
        | failure err2 =>
            simp [recordLastUploadError] at hacc
            subst hacc
            exact Or.inl (List.mem_cons_self _ _)
        | success =>
            simp [recordLastUploadError] at hacc
            exact Or.inr (by simp [hacc])
        | aborted =>
            simp [recordLastUploadError] at hacc
            exact Or.inr (by simp [hacc])

theorem foldl_recordLastUploadError_isSome_of_isSome (events : List UploadEvent) :
    ∀ acc : Option JsError, acc.isSome →
      (events.foldl recordLastUploadError acc).isSome := by
  induction events with
  | nil => intro acc h; simpa using h
  | cons e es ih =>
      intro acc h
      rw [List.foldl_cons]
      refine ih _ ?_
      cases e <;> simp [recordLastUploadError] <;> simpa using h

theorem foldl_recordLastUploadError_isSome_of_failure (events : List UploadEvent) :
    ∀ (acc : Option JsError) (err : JsError), UploadEvent.failure err ∈ events →
      (events.foldl recordLastUploadError acc).isSome := by
  induction events with
  | nil => intro acc err h; simp at h
  | cons e es ih =>
      intro acc err h
      rw [List.foldl_cons]
      rcases List.mem_cons.mp h with heq | hmem
      · subst heq
        exact foldl_recordLastUploadError_isSome_of_isSome es _
          (by simp [recordLastUploadError])
      · exact ih _ err hmem

theorem finishUpload_error_iff (el : ℚ) (s : UploadState) (err : JsError) :
    finishUpload el s = .error err ↔ s.lastError = some err ∧ s.bytes = 0 := by
  unfold finishUpload
  cases h : s.lastError with
  | none => simp
  | some e =>
      by_cases hb : s.bytes = 0 <;> simp [hb]

theorem finishUpload_ok_of_bytes_pos (el : ℚ) (s : UploadState)
    (h : 0 < s.bytes) : finishUpload el s = .ok (transferBps el s.bytes, s.count) := by
  unfold finishUpload
  cases s.lastError with
  | none => rfl
  | some e => simp [Nat.pos_iff_ne_zero.mp h]

/-! # Claims -/

theorem initUploadState_lastError (targets : List UploadTarget) :
    (initUploadState targets).lastError = none := by
  simp [initUploadState, notifyTargetChange_core]

theorem initUploadState_bytes (targets : List UploadTarget) :
    (initUploadState targets).bytes = 0 := by
  simp [initUploadState, notifyTargetChange_core]

/-- Claim C2.  For both transfer phases: the phase raises its recorded error
exactly when zero bytes were transferred and at least one non-abort error was
recorded (hypothesis for the download phase: every successful request carried
at least one byte, which holds for the fixed-size payloads actually fetched);
whenever at least one byte was transferred, the phase returns the successful
result computed from the partial data, regardless of failed requests. -/
theorem transferPhaseFailurePolicy :
    (∀ (events : List TransferEvent) (el : ℚ),
      (∀ b, TransferEvent.success b ∈ events → 0 < b) →
      ((∃ err, finishTransfer el (runTransfer events) = .error err) ↔
        ((runTransfer events).bytes = 0 ∧ ∃ err, TransferEvent.failure err ∈ events))
      ∧ (∀ err, finishTransfer el (runTransfer events) = .error err →
          (runTransfer events).lastError = some err ∧ TransferEvent.failure err ∈ events)
      ∧ (0 < (runTransfer events).bytes →
          finishTransfer el (runTransfer events) =
            .ok (transferBps el (runTransfer events).bytes, (runTransfer events).count)))
    ∧ (∀ (targets : List UploadTarget) (events : List UploadEvent) (el : ℚ),
        ((∃ err, finishUpload el (runUpload targets events) = .error err) ↔
          ((runUpload targets events).bytes = 0 ∧ ∃ err, UploadEvent.failure err ∈ events))
        ∧ (∀ err, finishUpload el (runUpload targets events) = .error err →
            (runUpload targets events).lastError = some err ∧
              UploadEvent.failure err ∈ events)
        ∧ (0 < (runUpload targets events).bytes →
            finishUpload el (runUpload targets events) =
              .ok (transferBps el (runUpload targets events).bytes,
                (runUpload targets events).count))) := by
  constructor
  · intro events el hpos
    have hbz : (runTransfer events).bytes = 0 →
        ∀ b, TransferEvent.success b ∈ events → False := by
      intro h0 b hb
      have hzero := foldl_transferStep_success_zero events _ h0 b hb
      exact (Nat.pos_iff_ne_zero.mp (hpos b hb)) hzero
    have hle : (runTransfer events).bytes = 0 →
        (runTransfer events).lastError = events.foldl recordLastError none := by
      intro h0
      exact foldl_transferStep_lastError events _ (hbz h0)
    refine ⟨⟨?_, ?_⟩, ?_, ?_⟩
    · rintro ⟨err, herr⟩
      rw [finishTransfer_error_iff] at herr
      obtain ⟨hlast, h0⟩ := herr
      refine ⟨h0, ?_⟩
      rw [hle h0] at hlast
      rcases foldl_recordLastError_some events none err hlast with hm | habs
      · exact ⟨err, hm⟩
      · simp at habs
    · rintro ⟨h0, err0, hmem⟩
      have hsome := foldl_recordLastError_isSome_of_failure events none err0 hmem
      obtain ⟨e, he⟩ := Option.isSome_iff_exists.mp hsome
      exact ⟨e, (finishTransfer_error_iff el _ e).mpr ⟨(hle h0).trans he, h0⟩⟩
    · intro err herr
      rw [finishTransfer_error_iff] at herr
      obtain ⟨hlast, h0⟩ := herr
      refine ⟨hlast, ?_⟩
      rw [hle h0] at hlast
      rcases foldl_recordLastError_some events none err hlast with hm | habs
      · exact hm
      · simp at habs
    · intro hb
      exact finishTransfer_ok_of_bytes_pos el _ hb
  · intro targets events el
    have hbz : (runUpload targets events).bytes = 0 → UploadEvent.success ∉ events :=
      fun h0 => foldl_uploadStep_no_success targets events _ h0
    have hle : (runUpload targets events).bytes = 0 →
        (runUpload targets events).lastError =
          events.foldl recordLastUploadError none := by
      intro h0
      have h := foldl_uploadStep_lastError targets events (initUploadState targets) (hbz h0)
      rwa [initUploadState_lastError] at h
    refine ⟨⟨?_, ?_⟩, ?_, ?_⟩
    · rintro ⟨err, herr⟩
      rw [finishUpload_error_iff] at herr
      obtain ⟨hlast, h0⟩ := herr
      refine ⟨h0, ?_⟩
      rw [hle h0] at hlast
      rcases foldl_recordLastUploadError_some events none err hlast with hm | habs
      · exact ⟨err, hm⟩
      · simp at habs
    · rintro ⟨h0, err0, hmem⟩
      have hsome := foldl_recordLastUploadError_isSome_of_failure events none err0 hmem
      obtain ⟨e, he⟩ := Option.isSome_iff_exists.mp hsome
      exact ⟨e, (finishUpload_error_iff el _ e).mpr ⟨(hle h0).trans he, h0⟩⟩
    · intro err herr
      rw [finishUpload_error_iff] at herr
      obtain ⟨hlast, h0⟩ := herr
      refine ⟨hlast, ?_⟩
      rw [hle h0] at hlast
      rcases foldl_recordLastUploadError_some events none err hlast with hm | habs
      · exact hm
      · simp at habs
    · intro hb
      exact finishUpload_ok_of_bytes_pos el _ hb

/-- Witness for `transferPhaseFailurePolicy`: a download phase with a single
successful 5-byte request succeeds, and an upload phase against the built-in
targets whose only request failed raises an error. -/
theorem transferPhaseFailurePolicy_witness :
    finishTransfer 1 (runTransfer [TransferEvent.success 5]) =
      .ok (transferBps 1 (runTransfer [TransferEvent.success 5]).bytes,
        (runTransfer [TransferEvent.success 5]).count)
    ∧ (∃ err,
        finishUpload 1 (runUpload DEFAULT_UPLOAD_TARGETS
          [UploadEvent.failure ⟨"boom", none, "Error"⟩]) = .error err) := by
  constructor
  · refine (transferPhaseFailurePolicy.1 [TransferEvent.success 5] 1 ?_).2.2 (by decide)
    intro b hb
    simp only [List.mem_singleton, TransferEvent.success.injEq] at hb
    subst hb
    decide
  · refine (transferPhaseFailurePolicy.2 DEFAULT_UPLOAD_TARGETS
      [UploadEvent.failure ⟨"boom", none, "Error"⟩] 1).1.mpr ⟨by decide, ?_⟩
    exact ⟨⟨"boom", none, "Error"⟩, by simp⟩

/-- The state prefix of the upload pump's catch block before the rotation
decision: record the error and increment the current target's failure
counter. -/
def incrementFailure (s : UploadState) (err : JsError) : UploadState :=
  { s with
    lastError := some err
    failureCounts :=
      s.failureCounts.set s.activeTargetIndex
        (s.failureCounts.getD s.activeTargetIndex 0 + 1) }

/-- The rotation trigger condition of the claim, phrased over the state
before the failure is recorded: more than one target exists, and the failure
classifies as rate-limited (429), forbidden (403) or network/transport error
(classified status 0, which the source uses as the no-HTTP-status sentinel),
or the current target reaches three consecutive failures. -/
def rotationTriggered (targets : List UploadTarget) (s : UploadState)
    (err : JsError) : Prop :=
  1 < targets.length ∧
    (classifyUploadFailureStatus err = some 429 ∨
     classifyUploadFailureStatus err = some 403 ∨
     classifyUploadFailureStatus err = some 0 ∨
     3 ≤ s.failureCounts.getD s.activeTargetIndex 0 + 1)

instance rotationTriggeredDecidable (targets : List UploadTarget) (s : UploadState)
    (err : JsError) : Decidable (rotationTriggered targets s err) := by
  unfold rotationTriggered
  infer_instance

theorem getD_set_self (l : List ℕ) (i : ℕ) (v : ℕ) (h : i < l.length) :
    (l.set i v).getD i 0 = v := by
  rw [List.getD_eq_getElem?_getD, List.getElem?_set_self h]
  rfl

theorem uploadStep_failure_eq (targets : List UploadTarget) (s : UploadState)
    (err : JsError) (hi : s.activeTargetIndex < targets.length)
    (hc : s.failureCounts.length = targets.length) :
    uploadStep targets s (.failure err) =
      if rotationTriggered targets s err then
        advanceTarget targets (incrementFailure s err) "fallback"
      else incrementFailure s err := by
  have hidx : s.activeTargetIndex < s.failureCounts.length := by rw [hc]; exact hi
  have hget := getD_set_self s.failureCounts s.activeTargetIndex
    (s.failureCounts.getD s.activeTargetIndex 0 + 1) hidx
  by_cases hr : rotationTriggered targets s err
  · rw [if_pos hr]
    obtain ⟨h1, h2⟩ := hr
    simp only [uploadStep, incrementFailure]
    rw [if_pos ⟨h1, by rw [hget]; exact h2⟩]
  · rw [if_neg hr]
    simp only [uploadStep, incrementFailure]
    rw [if_neg ?_]
    intro hcraw
    exact hr ⟨hcraw.1, by rw [hget] at hcraw; exact hcraw.2⟩

theorem next_index_ne (i n : ℕ) (h1 : 1 < n) (hi : i < n) : (i + 1) % n ≠ i := by
  rcases Nat.lt_or_ge (i + 1) n with hlt | hge
  · rw [Nat.mod_eq_of_lt hlt]
    omega
  · have heq : i + 1 = n := by omega
    rw [heq, Nat.mod_self]
    omega

theorem advanceTarget_rotates (targets : List UploadTarget) (s : UploadState)
    (reason : String) (h1 : 1 < targets.length)
    (hia : s.activeTargetIndex < targets.length)
    (hln : s.lastNotifiedTarget ≠ some ((s.activeTargetIndex + 1) % targets.length)) :
    advanceTarget targets s reason =
      { s with
        activeTargetIndex := (s.activeTargetIndex + 1) % targets.length
        failureCounts := s.failureCounts.set ((s.activeTargetIndex + 1) % targets.length) 0
        lastNotifiedTarget := some ((s.activeTargetIndex + 1) % targets.length)
        notifications := s.notifications ++
          [⟨(targets.getD ((s.activeTargetIndex + 1) % targets.length) { name := "", url := "" }).name,
            (targets.getD ((s.activeTargetIndex + 1) % targets.length) { name := "", url := "" }).url,
            reason⟩] } := by
  have hne := next_index_ne s.activeTargetIndex targets.length h1 hia
  simp only [advanceTarget, notifyTargetChange]
  rw [if_neg (by omega), if_pos hne, if_neg (by simp [hln])]

/-- Claim C3.  On a failed upload request, the rotation manager advances to
the next target — cyclically, resetting the newly selected target's failure
counter to zero and appending a notification with reason `fallback` —
exactly when more than one target exists and the failure classifies as
rate-limited (429), forbidden (403) or network/transport error (the status-0
classification given to errors without an HTTP status by the source), or the
current target has accumulated three consecutive failures.  The hypotheses
are the loop invariants of the phase: the active index is in range, one
failure counter exists per target, and the active target was the last one
notified. -/
theorem uploadRotationExactlyWhen (targets : List UploadTarget) (s : UploadState)
    (err : JsError) (hi : s.activeTargetIndex < targets.length)
    (hc : s.failureCounts.length = targets.length)
    (hn : s.lastNotifiedTarget = some s.activeTargetIndex) :
    ((uploadStep targets s (.failure err)).activeTargetIndex ≠ s.activeTargetIndex ↔
      rotationTriggered targets s err)
    ∧ (rotationTriggered targets s err →
        (uploadStep targets s (.failure err)).activeTargetIndex =
          (s.activeTargetIndex + 1) % targets.length
        ∧ (uploadStep targets s (.failure err)).failureCounts.getD
            ((s.activeTargetIndex + 1) % targets.length) 0 = 0
        ∧ (uploadStep targets s (.failure err)).notifications =
            s.notifications ++
              [⟨(targets.getD ((s.activeTargetIndex + 1) % targets.length)
                    { name := "", url := "" }).name,
                (targets.getD ((s.activeTargetIndex + 1) % targets.length)
                    { name := "", url := "" }).url,
                "fallback"⟩])
    ∧ (¬rotationTriggered targets s err →
        uploadStep targets s (.failure err) = incrementFailure s err) := by
  rw [uploadStep_failure_eq targets s err hi hc]
  by_cases hr : rotationTriggered targets s err
  · rw [if_pos hr]
    have h1 : 1 < targets.length := hr.1
    have hne := next_index_ne s.activeTargetIndex targets.length h1 hi
    have hia' : (incrementFailure s err).activeTargetIndex < targets.length := hi
    have hln' : (incrementFailure s err).lastNotifiedTarget ≠
        some (((incrementFailure s err).activeTargetIndex + 1) % targets.length) := by
      show s.lastNotifiedTarget ≠ some ((s.activeTargetIndex + 1) % targets.length)
      rw [hn]
      intro hcontra
      injection hcontra with hcontra
      exact hne hcontra.symm
    rw [advanceTarget_rotates targets (incrementFailure s err) "fallback" h1 hia' hln']
    have hnext : ((s.activeTargetIndex + 1) % targets.length) <
        ((incrementFailure s err).failureCounts).length := by
      show _ < (s.failureCounts.set _ _).length
      rw [List.length_set, hc]
      exact Nat.mod_lt _ (by omega)
    refine ⟨⟨fun _ => hr, fun _ => hne⟩, fun _ => ⟨rfl, ?_, rfl⟩, fun hnr => absurd hr hnr⟩
    exact getD_set_self _ _ _ hnext
  · rw [if_neg hr]
    refine ⟨⟨fun h => absurd rfl h, fun h => absurd h hr⟩,
      fun hcontra => absurd hcontra hr, fun _ => rfl⟩

/-- Witness for `uploadRotationExactlyWhen`: a rate-limited (HTTP 429)
failure from the initial state over the built-in targets rotates away from
target 0. -/
theorem uploadRotationExactlyWhen_witness :
    (uploadStep DEFAULT_UPLOAD_TARGETS (initUploadState DEFAULT_UPLOAD_TARGETS)
      (.failure ⟨"Upload test was rate limited (HTTP 429).", some 429, "Error"⟩)).activeTargetIndex ≠
      (initUploadState DEFAULT_UPLOAD_TARGETS).activeTargetIndex := by
  refine (uploadRotationExactlyWhen DEFAULT_UPLOAD_TARGETS
    (initUploadState DEFAULT_UPLOAD_TARGETS)
    ⟨"Upload test was rate limited (HTTP 429).", some 429, "Error"⟩
    (by decide) (by decide) (by decide)).1.mpr ?_
  decide

/-- Claim C4.  With the three default targets configured (empty environment
value), starting at target 0 with all failure counters zero, a scripted
sequence of three consecutive failures — each a generic error with no HTTP
status (classified status `undefined`, hence not an immediate rotation
trigger) — is recorded entirely against target 0 (the active index is still 0
after two failures), and leaves the rotation manager on target 1 with target
1's failure counter equal to 0 (and target 0's counter at 3). -/
theorem threeGenericFailuresSelectSecondTarget :
    (UPLOAD_TARGETS "").length = 3
    ∧ (runUpload (UPLOAD_TARGETS "")
        [.failure ⟨"Upload request failed.", none, "Error"⟩,
         .failure ⟨"Upload request failed.", none, "Error"⟩]).activeTargetIndex = 0
    ∧ (runUpload (UPLOAD_TARGETS "")
        [.failure ⟨"Upload request failed.", none, "Error"⟩,
         .failure ⟨"Upload request failed.", none, "Error"⟩,
         .failure ⟨"Upload request failed.", none, "Error"⟩]).activeTargetIndex = 1
    ∧ (runUpload (UPLOAD_TARGETS "")
        [.failure ⟨"Upload request failed.", none, "Error"⟩,
         .failure ⟨"Upload request failed.", none, "Error"⟩,
         .failure ⟨"Upload request failed.", none, "Error"⟩]).failureCounts.getD 1 0 = 0
    ∧ (runUpload (UPLOAD_TARGETS "")
        [.failure ⟨"Upload request failed.", none, "Error"⟩,
         .failure ⟨"Upload request failed.", none, "Error"⟩,
         .failure ⟨"Upload request failed.", none, "Error"⟩]).failureCounts.getD 0 0 = 3 := by
  decide

theorem tierStatusOf_cases (missing limiting : List String) :
    (tierStatusOf missing limiting = some false ↔ limiting ≠ [])
    ∧ (tierStatusOf missing limiting = none ↔ (limiting = [] ∧ missing ≠ []))
    ∧ (tierStatusOf missing limiting = some true ↔ (limiting = [] ∧ missing = [])) := by
  cases limiting <;> cases missing <;> simp [tierStatusOf]

theorem evaluateQuality_status (m : Measurements) (q : CapabilityQuality) :
    (evaluateQuality m q).status =
      tierStatusOf (evaluateQuality m q).missing (evaluateQuality m q).limiting := rfl

theorem head?_filter_eq_find? (p : α → Bool) (l : List α) :
    (l.filter p).head? = l.find? p := by
  induction l with
  | nil => rfl
  | cons a t ih => by_cases h : p a <;> simp [List.filter_cons, List.find?_cons, h, ih]

theorem rateGroup_ok_true_iff (m : Measurements) (g : CapabilityGroup) :
    (rateGroup m g).ok = some true ↔
      ∃ o ∈ g.qualities.map (evaluateQuality m), o.status = some true := by
  simp only [rateGroup]
  split
  · rename_i top rest heq
    have hmem := heq ▸ List.mem_cons_self top rest
    obtain ⟨h1, h2⟩ := List.mem_filter.mp hmem
    constructor
    · intro _
      exact ⟨top, h1, by simpa using h2⟩
    · intro _
      rfl
  · rename_i heq
    have hnone : ∀ o ∈ g.qualities.map (evaluateQuality m), ¬(o.status = some true) := by
      intro o ho
      have := List.filter_eq_nil_iff.mp heq o ho
      simpa using this
    split
    · constructor
      · intro h
        simp at h
      · rintro ⟨o, ho, hst⟩
        exact absurd hst (hnone o ho)
    · constructor
      · intro h
        simp at h
      · rintro ⟨o, ho, hst⟩
        exact absurd hst (hnone o ho)

theorem rateGroup_ok_none_iff (m : Measurements) (g : CapabilityGroup) :
    (rateGroup m g).ok = none ↔
      ((∀ o ∈ g.qualities.map (evaluateQuality m), ¬(o.status = some true)) ∧
        ∃ o ∈ g.qualities.map (evaluateQuality m), o.status = none) := by
  simp only [rateGroup]
  split
  · rename_i top rest heq
    have hmem := heq ▸ List.mem_cons_self top rest
    obtain ⟨h1, h2⟩ := List.mem_filter.mp hmem
    constructor
    · intro h
      simp at h
    · rintro ⟨hall, _⟩
      exact absurd (by simpa using h2) (hall top h1)
  · rename_i heq
    have hnone : ∀ o ∈ g.qualities.map (evaluateQuality m), ¬(o.status = some true) := by
      intro o ho
      have := List.filter_eq_nil_iff.mp heq o ho
      simpa using this
    split
    · rename_i u hequ
      constructor
      · intro _
        refine ⟨hnone, u, List.mem_of_find?_eq_some hequ, ?_⟩
        simpa using List.find?_some hequ
      · intro _
        rfl
    · rename_i hequ
      constructor
      · intro h
        simp at h
      · rintro ⟨hall, o, ho, hst⟩
        exact absurd hst (by simpa using List.find?_eq_none.mp hequ o ho)

theorem rateGroup_ok_false_iff (m : Measurements) (g : CapabilityGroup) :
    (rateGroup m g).ok = some false ↔
      ∀ o ∈ g.qualities.map (evaluateQuality m), o.status = some false := by
  simp only [rateGroup]
  split
  · rename_i top rest heq
    have hmem := heq ▸ List.mem_cons_self top rest
    obtain ⟨h1, h2⟩ := List.mem_filter.mp hmem
    constructor
    · intro h
      simp at h
    · intro hall
      have hfalse := hall top h1
      have htrue : top.status = some true := by simpa using h2
      rw [htrue] at hfalse
      simp at hfalse
  · rename_i heq
    have hnone : ∀ o ∈ g.qualities.map (evaluateQuality m), ¬(o.status = some true) := by
      intro o ho
      have := List.filter_eq_nil_iff.mp heq o ho
      simpa using this
    split
    · rename_i u hequ
      have hu : u.status = none := by simpa using List.find?_some hequ
      constructor
      · intro h
        simp at h
      · intro hall
        have := hall u (List.mem_of_find?_eq_some hequ)
        rw [hu] at this
        simp at this
    · rename_i hequ
      constructor
      · intro _
        intro o ho
        have hnn : ¬(o.status = none) := by
          simpa using List.find?_eq_none.mp hequ o ho
        rcases hso : o.status with _ | b
        · exact absurd hso hnn
        · cases b
          · rfl
          · exact absurd hso (hnone o ho)
      · intro _
        rfl

theorem rateGroup_pass_report (m : Measurements) (g : CapabilityGroup) :
    (rateGroup m g).ok = some true →
      ∃ top, (g.qualities.map (evaluateQuality m)).find?
          (fun o => o.status = some true) = some top
        ∧ (rateGroup m g).why = s!"Highest supported quality: {top.label} ({top.detail})"
        ∧ (rateGroup m g).missing = []
        ∧ (rateGroup m g).limiting = [] := by
  simp only [rateGroup]
  split
  · rename_i top rest heq
    intro _
    refine ⟨top, ?_, rfl, rfl, rfl⟩
    rw [← head?_filter_eq_find?, heq]
    rfl
  · split
    · intro h
      simp at h
    · intro h
      simp at h

theorem rateGroup_unknown_report (m : Measurements) (g : CapabilityGroup) :
    (rateGroup m g).ok = none →
      ∃ u, (g.qualities.map (evaluateQuality m)).find? (fun o => o.status = none) = some u
        ∧ (rateGroup m g).missing = u.missing
        ∧ (rateGroup m g).limiting = [] := by
  simp only [rateGroup]
  split
  · intro h
    simp at h
  · split
    · rename_i u hequ
      intro _
      exact ⟨u, hequ, rfl, rfl⟩
    · intro h
      simp at h

theorem rateGroup_fail_report (m : Measurements) (g : CapabilityGroup)
    (hg : g.qualities ≠ []) :
    (rateGroup m g).ok = some false →
      ∃ y, (g.qualities.map (evaluateQuality m)).reverse.find?
          (fun o => o.status = some false) = some y
        ∧ (rateGroup m g).limiting = y.limiting
        ∧ (rateGroup m g).missing = [] := by
  simp only [rateGroup]
  split
  · intro h
    simp at h
  · rename_i heq
    have hnone : ∀ o ∈ g.qualities.map (evaluateQuality m), ¬(o.status = some true) := by
      intro o ho
      have := List.filter_eq_nil_iff.mp heq o ho
      simpa using this
    split
    · intro h
      simp at h
    · rename_i hequ
      intro _
      have hall : ∀ o ∈ g.qualities.map (evaluateQuality m), o.status = some false := by
        intro o ho
        have hnn : ¬(o.status = none) := by
          simpa using List.find?_eq_none.mp hequ o ho
        rcases hso : o.status with _ | b
        · exact absurd hso hnn
        · cases b
          · rfl
          · exact absurd hso (hnone o ho)
      have hopts : g.qualities.map (evaluateQuality m) ≠ [] := by
        simpa using hg
      have hrev : (g.qualities.map (evaluateQuality m)).reverse ≠ [] := by
        simpa using hopts
      have hex : ∃ x ∈ (g.qualities.map (evaluateQuality m)).reverse,
          (fun o => decide (o.status = some false)) x = true := by
        refine ⟨(g.qualities.map (evaluateQuality m)).reverse.head hrev,
          List.head_mem hrev, ?_⟩
        simp only [decide_eq_true_eq]
        exact hall _ (List.mem_reverse.mp (List.head_mem hrev))
      obtain ⟨y, hy⟩ := Option.isSome_iff_exists.mp (List.find?_isSome.mpr hex)
      refine ⟨y, hy, ?_, rfl⟩
      show ((_ : Option TierResult).map fun o => o.limiting).getD [] = y.limiting
      rw [hy]
      rfl

/-- Claim C5.  For every measurement input, a profile group's verdict is Pass
exactly when some tier passes — reporting the first (highest, in catalog
order) passing tier as the achieved quality; otherwise Unknown exactly when
some tier is unknown — reporting the first such tier's missing measurements;
otherwise Fail (all tiers failing) — reporting the limiting factors of the
last, most-demanding-listed failing tier. -/
theorem groupVerdictAggregation (m : Measurements) (g : CapabilityGroup)
    (hg : g.qualities ≠ []) :
    ((rateGroup m g).ok = some true ↔
        ∃ o ∈ g.qualities.map (evaluateQuality m), o.status = some true)
    ∧ ((rateGroup m g).ok = some true →
        ∃ top, (g.qualities.map (evaluateQuality m)).find?
            (fun o => o.status = some true) = some top
          ∧ (rateGroup m g).why =
              s!"Highest supported quality: {top.label} ({top.detail})")
    ∧ ((rateGroup m g).ok = none ↔
        ((∀ o ∈ g.qualities.map (evaluateQuality m), ¬(o.status = some true)) ∧
          ∃ o ∈ g.qualities.map (evaluateQuality m), o.status = none))
    ∧ ((rateGroup m g).ok = none →
        ∃ u, (g.qualities.map (evaluateQuality m)).find?
            (fun o => o.status = none) = some u
          ∧ (rateGroup m g).missing = u.missing)
    ∧ ((rateGroup m g).ok = some false ↔
        ∀ o ∈ g.qualities.map (evaluateQuality m), o.status = some false)
    ∧ ((rateGroup m g).ok = some false →
        ∃ y, (g.qualities.map (evaluateQuality m)).reverse.find?
            (fun o => o.status = some false) = some y
          ∧ (rateGroup m g).limiting = y.limiting) := by
  refine ⟨rateGroup_ok_true_iff m g, ?_, rateGroup_ok_none_iff m g, ?_,
    rateGroup_ok_false_iff m g, ?_⟩
  · intro h
    obtain ⟨top, h1, h2, _, _⟩ := rateGroup_pass_report m g h
    exact ⟨top, h1, h2⟩
  · intro h
    obtain ⟨u, h1, h2, _⟩ := rateGroup_unknown_report m g h
    exact ⟨u, h1, h2⟩
  · intro h
    obtain ⟨y, h1, h2, _⟩ := rateGroup_fail_report m g hg h
    exact ⟨y, h1, h2⟩

/-- Witness for `groupVerdictAggregation`: with ample measurements the Teams
group passes via its first tier. -/
theorem groupVerdictAggregation_witness :
    (rateGroup { dlMbps := some 30, ulMbps := some 5, rtt := some 20, loss := some 0.5 }
      (CAPABILITY_GROUPS.getD 0 { service := "", qualities := [] })).ok = some true := by
  refine (groupVerdictAggregation _ _ (by simp [CAPABILITY_GROUPS])).1.mpr ?_
  refine ⟨evaluateQuality
    { dlMbps := some 30, ulMbps := some 5, rtt := some 20, loss := some 0.5 }
    ((CAPABILITY_GROUPS.getD 0 { service := "", qualities := [] }).qualities.getD 0
      { key := "", label := "", detail := "",
        thresholds := { minDl := none, minUl := none, maxRtt := none, maxLoss := none } }),
    ?_, ?_⟩
  · refine List.mem_map.mpr ⟨_, ?_, rfl⟩
    simp [CAPABILITY_GROUPS]
  · norm_num [CAPABILITY_GROUPS, evaluateQuality, evalMinDim, evalMaxDim,
      tierStatusOf, EPSILON]

/-- Claim C6, counterexample.  With `downloadMbps = 10` and all other
measurements absent, the claim predicts verdict Unknown for every profile
having a non-download threshold; but the GeForce NOW profile, although it has
latency and loss thresholds on both tiers, is rated Fail because both its
tiers' download minimums (25 and 15 Mbps) are already violated by download
alone (limiting takes precedence over missing). -/
theorem rateDownloadOnlyTen_counterexample :
    ((rateCapabilities { dlMbps := some 10, ulMbps := none, rtt := none, loss := none }).map
      fun r => (r.key, r.ok)) =
        [("Teams", none), ("Streaming", none), ("GeForce NOW", some false)]
    ∧ ((CAPABILITY_GROUPS.getD 2 { service := "", qualities := [] }).qualities.map
        fun q => q.thresholds.maxRtt) = [some 40, some 80] := by
  constructor
  · norm_num [rateCapabilities, CAPABILITY_GROUPS, rateGroup, evaluateQuality,
      evalMinDim, evalMaxDim, tierStatusOf, EPSILON, List.filter_cons, List.find?_cons]
    simp
  · norm_num [CAPABILITY_GROUPS]

/-- Claim C6, amended.  Rating with `downloadMbps = 10` and all other
measurements absent yields Unknown for every profile with a non-download
threshold whose tiers are not all already failed on download alone (Teams and
Streaming, reporting the missing measurements), and Fail for GeForce NOW,
both of whose tiers' download minimums exceed 10 (reporting download speed as
the limiting factor). -/
theorem rateDownloadOnlyTen :
    ((rateCapabilities { dlMbps := some 10, ulMbps := none, rtt := none, loss := none }).map
      fun r => (r.key, r.ok)) =
        [("Teams", none), ("Streaming", none), ("GeForce NOW", some false)]
    ∧ ((rateCapabilities { dlMbps := some 10, ulMbps := none, rtt := none, loss := none }).map
        fun r => r.missing) =
        [["upload speed", "latency", "packet loss"], ["packet loss"], []]
    ∧ ((rateCapabilities { dlMbps := some 10, ulMbps := none, rtt := none, loss := none }).map
        fun r => r.limiting) =
        [[], [], ["download speed"]] := by
  refine ⟨?_, ?_, ?_⟩ <;>
    (norm_num [rateCapabilities, CAPABILITY_GROUPS, rateGroup, evaluateQuality,
      evalMinDim, evalMaxDim, tierStatusOf, EPSILON, List.filter_cons, List.find?_cons]
     simp [List.find?_cons])

/-- Rank of a verdict in the order Fail < Unknown < Pass. -/
def verdictRank : Option Bool → ℕ
  | some false => 0
  | none => 1
  | some true => 2

theorem evalMinDim_present_missing (label : String) (th : Option ℚ) (v : ℚ) :
    (evalMinDim label th (some v)).1 = [] := by
  cases th with
  | none => rfl
  | some t => by_cases h : v + EPSILON < t <;> simp [evalMinDim, h]

theorem evalMinDim_limiting_mono (label : String) (th : Option ℚ) (d1 d2 : ℚ)
    (hle : d1 ≤ d2) (h : (evalMinDim label th (some d1)).2 = []) :
    (evalMinDim label th (some d2)).2 = [] := by
  cases th with
  | none => rfl
  | some t =>
      by_cases h2 : d2 + EPSILON < t
      · exfalso
        have h1 : d1 + EPSILON < t := lt_of_le_of_lt (by linarith) h2
        simp [evalMinDim, h1] at h
      · simp [evalMinDim, h2]

theorem evaluateQuality_download_mono (q : CapabilityQuality) (m1 m2 : Measurements)
    (hul : m1.ulMbps = m2.ulMbps) (hrtt : m1.rtt = m2.rtt) (hloss : m1.loss = m2.loss)
    (d1 d2 : ℚ) (hd1 : m1.dlMbps = some d1) (hd2 : m2.dlMbps = some d2)
    (hle : d1 ≤ d2) :
    (evaluateQuality m1 q).missing = (evaluateQuality m2 q).missing
    ∧ ((evaluateQuality m1 q).limiting = [] → (evaluateQuality m2 q).limiting = []) := by
  constructor
  · simp only [evaluateQuality, hd1, hd2, hul, hrtt, hloss,
      evalMinDim_present_missing]
  · intro h
    simp only [evaluateQuality, hd1, hd2, hul, hrtt, hloss] at h ⊢
    simp only [List.append_eq_nil] at h ⊢
    obtain ⟨⟨⟨ha, hb⟩, hc⟩, hd⟩ := h
    exact ⟨⟨⟨evalMinDim_limiting_mono _ _ d1 d2 hle ha, hb⟩, hc⟩, hd⟩

theorem evaluateQuality_status_mono (q : CapabilityQuality) (m1 m2 : Measurements)
    (hul : m1.ulMbps = m2.ulMbps) (hrtt : m1.rtt = m2.rtt) (hloss : m1.loss = m2.loss)
    (d1 d2 : ℚ) (hd1 : m1.dlMbps = some d1) (hd2 : m2.dlMbps = some d2)
    (hle : d1 ≤ d2) :
    ((evaluateQuality m1 q).status = some true → (evaluateQuality m2 q).status = some true)
    ∧ ((evaluateQuality m1 q).status = none → (evaluateQuality m2 q).status = none) := by
  obtain ⟨hmiss, hlim⟩ :=
    evaluateQuality_download_mono q m1 m2 hul hrtt hloss d1 d2 hd1 hd2 hle
  have hc1 := tierStatusOf_cases (evaluateQuality m1 q).missing (evaluateQuality m1 q).limiting
  have hc2 := tierStatusOf_cases (evaluateQuality m2 q).missing (evaluateQuality m2 q).limiting
  constructor
  · intro h
    rw [evaluateQuality_status] at h ⊢
    obtain ⟨hl, hm⟩ := hc1.2.2.mp h
    exact hc2.2.2.mpr ⟨hlim hl, hmiss ▸ hm⟩
  · intro h
    rw [evaluateQuality_status] at h ⊢
    obtain ⟨hl, hm⟩ := hc1.2.1.mp h
    exact hc2.2.1.mpr ⟨hlim hl, hmiss ▸ hm⟩

/-- Claim C7.  For two measurement inputs agreeing on upload, RTT and loss,
both with a present download measurement, the second strictly larger, every
profile group's verdict under the second input is at least the verdict under
the first in the order Fail < Unknown < Pass. -/
theorem downloadMbpsMonotone (m1 m2 : Measurements)
    (hul : m1.ulMbps = m2.ulMbps) (hrtt : m1.rtt = m2.rtt) (hloss : m1.loss = m2.loss)
    (d1 d2 : ℚ) (hd1 : m1.dlMbps = some d1) (hd2 : m2.dlMbps = some d2)
    (hlt : d1 < d2) (g : CapabilityGroup) :
    verdictRank (rateGroup m1 g).ok ≤ verdictRank (rateGroup m2 g).ok := by
  have hle : d1 ≤ d2 := le_of_lt hlt
  rcases h1 : (rateGroup m1 g).ok with _ | b
  · obtain ⟨hnotrue, o, ho, host⟩ := (rateGroup_ok_none_iff m1 g).mp h1
    obtain ⟨q, hq, rfl⟩ := List.mem_map.mp ho
    have h2none := (evaluateQuality_status_mono q m1 m2 hul hrtt hloss
      d1 d2 hd1 hd2 hle).2 host
    have hnf : (rateGroup m2 g).ok ≠ some false := by
      intro hf
      have hall := (rateGroup_ok_false_iff m2 g).mp hf
      have := hall (evaluateQuality m2 q) (List.mem_map.mpr ⟨q, hq, rfl⟩)
      rw [h2none] at this
      simp at this
    rcases h2 : (rateGroup m2 g).ok with _ | b2
    · simp [verdictRank]
    · cases b2
      · exact absurd h2 hnf
      · simp [verdictRank]
  · cases b
    · simp only [verdictRank]
      exact Nat.zero_le _
    · obtain ⟨o, ho, host⟩ := (rateGroup_ok_true_iff m1 g).mp h1
      obtain ⟨q, hq, rfl⟩ := List.mem_map.mp ho
      have h2true := (evaluateQuality_status_mono q m1 m2 hul hrtt hloss
        d1 d2 hd1 hd2 hle).1 host
      have h2 : (rateGroup m2 g).ok = some true :=
        (rateGroup_ok_true_iff m2 g).mpr
          ⟨evaluateQuality m2 q, List.mem_map.mpr ⟨q, hq, rfl⟩, h2true⟩
      rw [h2]

/-- Witness for `downloadMbpsMonotone`: raising the download measurement from
1 to 30 Mbps with the other measurements fixed does not lower the Teams
verdict. -/
theorem downloadMbpsMonotone_witness :
    verdictRank (rateGroup
        { dlMbps := some 1, ulMbps := some 5, rtt := some 20, loss := some 0.5 }
        (CAPABILITY_GROUPS.getD 0 { service := "", qualities := [] })).ok ≤
      verdictRank (rateGroup
        { dlMbps := some 30, ulMbps := some 5, rtt := some 20, loss := some 0.5 }
        (CAPABILITY_GROUPS.getD 0 { service := "", qualities := [] })).ok :=
  downloadMbpsMonotone
    { dlMbps := some 1, ulMbps := some 5, rtt := some 20, loss := some 0.5 }
    { dlMbps := some 30, ulMbps := some 5, rtt := some 20, loss := some 0.5 }
    rfl rfl rfl 1 30 rfl rfl (by norm_num)
    (CAPABILITY_GROUPS.getD 0 { service := "", qualities := [] })

/-- Claim C8.  In every threshold dimension of every tier, a present
measurement that satisfies the comparison non-strictly — at least the
threshold for minimum dimensions, at most the threshold for maximum
dimensions, in particular exactly equal to it — is neither missing nor
limiting (the epsilon tolerance keeps the boundary value from being
classified as limiting); consequently a tier whose four thresholds are met
exactly passes.  The flat `App.jsx` variant's `toCheck` with its
`value >= min` / `value <= max` predicates likewise reports the boundary
value as satisfied. -/
theorem thresholdBoundary :
    (∀ (t v : ℚ) (label : String), t ≤ v →
      evalMinDim label (some t) (some v) = ([], []))
    ∧ (∀ (t v : ℚ) (label : String), v ≤ t →
      evalMaxDim label (some t) (some v) = ([], []))
    ∧ (∀ (q : CapabilityQuality) (a b c d : ℚ),
        q.thresholds =
          { minDl := some a, minUl := some b, maxRtt := some c, maxLoss := some d } →
        (evaluateQuality
          { dlMbps := some a, ulMbps := some b, rtt := some c, loss := some d }
          q).status = some true)
    ∧ (∀ (t : ℚ) (label : String),
        (appToCheck label (some t) fun v => decide (v ≥ t)).status = some true
        ∧ (appToCheck label (some t) fun v => decide (v ≤ t)).status = some true) := by
  have hε : (0 : ℚ) < EPSILON := by norm_num [EPSILON]
  have hmin : ∀ (t v : ℚ) (label : String), t ≤ v →
      evalMinDim label (some t) (some v) = ([], []) := by
    intro t v label hle
    have hnot : ¬(v + EPSILON < t) := by linarith
    simp [evalMinDim, hnot]
  have hmax : ∀ (t v : ℚ) (label : String), v ≤ t →
      evalMaxDim label (some t) (some v) = ([], []) := by
    intro t v label hle
    have hnot : ¬(v - EPSILON > t) := by linarith
    simp [evalMaxDim, hnot]
  refine ⟨hmin, hmax, ?_, ?_⟩
  · intro q a b c d hth
    simp [evaluateQuality, hth, hmin a a _ le_rfl, hmin b b _ le_rfl,
      hmax c c _ le_rfl, hmax d d _ le_rfl, tierStatusOf]
  · intro t label
    constructor <;> simp [appToCheck]

/-- Witness for `thresholdBoundary`: the boundary value 3 satisfies a minimum
threshold of 3, and the Teams 720p tier passes when every measurement equals
its threshold exactly. -/
theorem thresholdBoundary_witness :
    evalMinDim "download speed" (some 3) (some 3) = ([], [])
    ∧ (evaluateQuality
        { dlMbps := some 1.5, ulMbps := some 1, rtt := some 150, loss := some 3 }
        ((CAPABILITY_GROUPS.getD 0 { service := "", qualities := [] }).qualities.getD 0
          { key := "", label := "", detail := "",
            thresholds := { minDl := none, minUl := none, maxRtt := none, maxLoss := none } })).status =
      some true := by
  constructor
  · exact thresholdBoundary.1 3 3 "download speed" le_rfl
  · exact thresholdBoundary.2.2.1 _ 1.5 1 150 3 (by simp [CAPABILITY_GROUPS])

/-- Claim C9.  For every measurement input, every profile verdict produced by
the grouped rating engine that is Fail carries a non-empty list of limiting
factors, and every verdict that is Unknown carries a non-empty list of
missing measurements. -/
theorem failUnknownCarryReasons (m : Measurements) :
    ∀ r ∈ rateCapabilities m,
      (r.ok = some false → r.limiting ≠ []) ∧ (r.ok = none → r.missing ≠ []) := by
  intro r hr
  obtain ⟨g, hg, rfl⟩ := List.mem_map.mp hr
  have hgq : g.qualities ≠ [] := by
    simp only [CAPABILITY_GROUPS, List.mem_cons, List.mem_singleton] at hg
    rcases hg with rfl | rfl | rfl | hfalse
    · simp
    · simp
    · simp
    · simp at hfalse
  constructor
  · intro hf
    obtain ⟨y, hy, hlim, _⟩ := rateGroup_fail_report m g hgq hf
    have hys : y.status = some false := by simpa using List.find?_some hy
    obtain ⟨q, _, rfl⟩ :=
      List.mem_map.mp (List.mem_reverse.mp (List.mem_of_find?_eq_some hy))
    rw [hlim]
    rw [evaluateQuality_status] at hys
    exact (tierStatusOf_cases _ _).1.mp hys
  · intro hu
    obtain ⟨u, hu2, hmiss, _⟩ := rateGroup_unknown_report m g hu
    have hus : u.status = none := by simpa using List.find?_some hu2
    obtain ⟨q, _, rfl⟩ := List.mem_map.mp (List.mem_of_find?_eq_some hu2)
    rw [hmiss]
    rw [evaluateQuality_status] at hus
    exact ((tierStatusOf_cases _ _).2.1.mp hus).2

/-- Witness for `failUnknownCarryReasons`: with no measurements at all, the
Teams group is Unknown and indeed reports missing measurements. -/
theorem failUnknownCarryReasons_witness :
    (rateGroup { dlMbps := none, ulMbps := none, rtt := none, loss := none }
      (CAPABILITY_GROUPS.getD 0 { service := "", qualities := [] })).missing ≠ [] := by
  refine (failUnknownCarryReasons
    { dlMbps := none, ulMbps := none, rtt := none, loss := none }
    (rateGroup { dlMbps := none, ulMbps := none, rtt := none, loss := none }
      (CAPABILITY_GROUPS.getD 0 { service := "", qualities := [] }))
    (List.mem_map.mpr ⟨_, by simp [CAPABILITY_GROUPS], rfl⟩)).2 ?_
  norm_num [rateCapabilities, CAPABILITY_GROUPS, rateGroup, evaluateQuality,
    evalMinDim, evalMaxDim, tierStatusOf, EPSILON, List.filter_cons, List.find?_cons]
  simp [List.find?_cons]

/-- Every URL present in a target list keeps a representative (the first
occurrence) through the de-duplication filter of `UPLOAD_TARGETS`. -/
theorem mem_url_dedupByUrl (arr : List UploadTarget) (u : String)
    (h : ∃ t ∈ arr, t.url = u) : ∃ t ∈ dedupByUrl arr, t.url = u := by
  have hex : ∃ x ∈ arr, (fun item => decide (item.url = u)) x = true := by
    obtain ⟨t, ht, hu⟩ := h
    exact ⟨t, ht, by simp [hu]⟩
  have hlt := List.findIdx_lt_length_of_exists hex
  have hq : (fun item => decide (item.url = u))
      (arr[arr.findIdx (fun item => decide (item.url = u))]) = true :=
    List.findIdx_getElem (w := hlt)
  have hurl : arr[arr.findIdx (fun item => decide (item.url = u))].url = u := by
    simpa using hq
  refine ⟨arr[arr.findIdx (fun item => decide (item.url = u))], ?_, hurl⟩
  unfold dedupByUrl
  refine List.mem_map.mpr ⟨(arr.findIdx (fun item => decide (item.url = u)),
    arr[arr.findIdx (fun item => decide (item.url = u))]), ?_, rfl⟩
  refine List.mem_filter.mpr ⟨List.mem_enum_iff_getElem?.mpr ?_, ?_⟩
  · exact List.getElem?_eq_getElem hlt
  · simp only [hurl]
    simp

/-- Claim C10, counterexample.  The claim says the merged de-duplicated list
contains the three built-in default targets for every environment value; but
when the environment configures a URL equal to a default's URL, the
de-duplication keeps the (earlier) configured entry and drops the default
target itself. -/
theorem uploadTargetsDedup_counterexample :
    ({ name := "Cloudflare Speed Test", url := "https://speed.cloudflare.com/__up" } : UploadTarget)
      ∈ DEFAULT_UPLOAD_TARGETS
    ∧ ({ name := "Cloudflare Speed Test", url := "https://speed.cloudflare.com/__up" } : UploadTarget)
      ∉ UPLOAD_TARGETS "https://speed.cloudflare.com/__up" := by
  constructor
  · decide
  · decide

/-- Claim C10, amended.  For every environment value, the merged
de-duplicated upload target list contains a target carrying each of the three
built-in default URLs (the default entry itself unless an environment entry
with the same URL precedes it); hence the list is never empty and the
'No upload endpoints configured' configuration error is unreachable. -/
theorem uploadTargetsNeverEmpty (env : String) :
    (∀ d ∈ DEFAULT_UPLOAD_TARGETS, ∃ t ∈ UPLOAD_TARGETS env, t.url = d.url)
    ∧ UPLOAD_TARGETS env ≠ []
    ∧ measureUploadConfigCheck env = .ok () := by
  have hmem : ∀ d ∈ DEFAULT_UPLOAD_TARGETS, ∃ t ∈ UPLOAD_TARGETS env, t.url = d.url := by
    intro d hd
    exact mem_url_dedupByUrl _ d.url ⟨d, List.mem_append_right _ hd, rfl⟩
  have hne : UPLOAD_TARGETS env ≠ [] := by
    obtain ⟨t, ht, _⟩ := hmem
      ⟨"Cloudflare Speed Test", "https://speed.cloudflare.com/__up"⟩
      (by simp [DEFAULT_UPLOAD_TARGETS])
    intro hnil
    rw [hnil] at ht
    exact absurd ht (List.not_mem_nil t)
  have hlen : (UPLOAD_TARGETS env).length ≠ 0 :=
    fun h0 => hne (List.length_eq_zero.mp h0)
  refine ⟨hmem, hne, ?_⟩
  simp [measureUploadConfigCheck, hlen]

/-- Witness for `uploadTargetsNeverEmpty` at the empty environment value. -/
theorem uploadTargetsNeverEmpty_witness :
    UPLOAD_TARGETS "" ≠ []
    ∧ measureUploadConfigCheck "" = .ok ()
    ∧ ∃ t ∈ UPLOAD_TARGETS "", t.url = "https://speed.cloudflare.com/__up" :=
  ⟨(uploadTargetsNeverEmpty "").2.1, (uploadTargetsNeverEmpty "").2.2,
    (uploadTargetsNeverEmpty "").1
      ⟨"Cloudflare Speed Test", "https://speed.cloudflare.com/__up"⟩
      (by simp [DEFAULT_UPLOAD_TARGETS])⟩

/-- Claim C1, counterexample.  The claim states that with 0 drops and 0
collected samples the aggregate `lossPercent` is defined to be 0, not `NaN`.
The source computes `(drops / (drops + durations.length)) * 100` with no
guard on the divisor, so with 0 drops and 0 samples it evaluates `0 / 0`,
which is `NaN` (modelled as `none`), not 0. -/
theorem measureLatencyLoss_zero_zero_is_nan :
    measureLatencyLoss 0 0 = none ∧ measureLatencyLoss 0 0 ≠ some 0 := by
  constructor
  · rfl
  · simp [measureLatencyLoss]

/-- Claim C1, amended.  Whenever at least one probe was attempted and settled
(drops + samples > 0), the aggregate loss equals
`drops / (drops + samples) × 100`; in the degenerate case of 0 drops and 0
samples the aggregate is `NaN` (not 0). -/
theorem measureLatencyLoss_formula :
    (∀ drops samples : ℕ, drops + samples ≠ 0 →
      measureLatencyLoss drops samples =
        some ((drops : ℚ) / ((drops : ℚ) + (samples : ℚ)) * 100))
    ∧ measureLatencyLoss 0 0 = none := by
  constructor
  · intro drops samples h
    simp [measureLatencyLoss, h]
  · rfl

/-- Witness for `measureLatencyLoss_formula` at 1 drop, 3 samples: 25% loss. -/
theorem measureLatencyLoss_formula_witness :
    measureLatencyLoss 1 3 = some 25 := by
  have h := measureLatencyLoss_formula.1 1 3 (by decide)
  rw [h]
  norm_num

end Speedtest
